import Mathlib

/-!
Verification development for the AWS-EVO repository (two operator scripts):
`create_routes.py` (API Gateway route provisioner) and
`scripts/generate-cf-lambdas.py` (CloudFormation template generator).

The Python sources are shallowly embedded: pure string manipulation becomes
Lean functions on `String` / `List Char`; the AWS management-plane calls of
the route provisioner become an explicit environment (`Env`) of fallible
operations, and `create_route` records the calls it performs in a trace.
-/

namespace AwsEvo

/-! ## Route provisioner (`create_routes.py`) -/

/-- Module-level constant `API_ID = "w5gyvgfskh"`. -/
def API_ID : String := "w5gyvgfskh"

/-- Module-level constant `AUTHORIZER_ID = "shn0ze"`. -/
def AUTHORIZER_ID : String := "shn0ze"

/-- Module-level constant `REGION = "us-east-1"`. -/
def REGION : String := "us-east-1"

/-- Module-level constant `ACCOUNT_ID = "523115032346"`. -/
def ACCOUNT_ID : String := "523115032346"

/-- The keyword-argument dictionary `route_params` passed to
`apigw.create_route(**route_params)`.  The optional fields model the two keys
`AuthorizationType` / `AuthorizerId` that are inserted only when
`needs_auth` holds; `none` means the key is absent from the dict. -/
structure RouteParams where
  apiId : String
  routeKey : String
  target : String
  authorizationType : Option String
  authorizerId : Option String
deriving DecidableEq, Repr

/-- Construction of `route_params` in `create_route`:
`{'ApiId': API_ID, 'RouteKey': f'POST {path}', 'Target': f'integrations/{integration_id}'}`,
plus `AuthorizationType = 'JWT'` and `AuthorizerId = AUTHORIZER_ID` exactly
when `needs_auth` is true. -/
def route_params (path : String) (needs_auth : Bool) (integration_id : String) : RouteParams :=
  { apiId := API_ID
    routeKey := "POST " ++ path
    target := "integrations/" ++ integration_id
    authorizationType := if needs_auth then some "JWT" else none
    authorizerId := if needs_auth then some AUTHORIZER_ID else none }

/-- One AWS management-plane call performed by `create_route`, as recorded in
its trace (in call order). -/
inductive Action where
  | createIntegration (lambdaName : String)
  | createRoute (params : RouteParams)
  | addPermission (lambdaName : String)
deriving DecidableEq, Repr

/-- The provider environment: the outcome of each AWS call.
`createIntegration` returns an `IntegrationId`, `createRoute` a `RouteId`;
`.error` models the call raising an exception. -/
structure Env where
  createIntegration : String → Except String String
  createRoute : RouteParams → Except String String
  addPermission : String → Except String Unit

/-- Embedding of `create_route(lambda_name, path, needs_auth)`: create an integration,
create a route (with JWT authorization metadata iff `needs_auth`), then
best-effort `add_permission` whose failure is swallowed by the inner
`try/except: pass`.  Any exception from step 1 or 2 is caught by the outer
`try/except` and turns the result into `False`.  Returns the Python boolean
result together with the trace of AWS calls actually issued. -/
def create_route (env : Env) (lambda_name path : String) (needs_auth : Bool) :
    Bool × List Action :=
  match env.createIntegration lambda_name with
  | .error _ => (false, [Action.createIntegration lambda_name])
  | .ok integration_id =>
    let rp := route_params path needs_auth integration_id
    match env.createRoute rp with
    | .error _ => (false, [Action.createIntegration lambda_name, Action.createRoute rp])
    | .ok _ =>
      -- the permission call is wrapped in `try/except: pass`: both of its
      -- outcomes fall through to the same success result
      match env.addPermission lambda_name with
      | .ok _ => (true, [Action.createIntegration lambda_name, Action.createRoute rp,
                         Action.addPermission lambda_name])
      | .error _ => (true, [Action.createIntegration lambda_name, Action.createRoute rp,
                            Action.addPermission lambda_name])

/-- The `ROUTES` dictionary: `lambda_name ↦ (path, needs_auth)`, in insertion
order (Python dicts preserve it). -/
def ROUTES : List (String × String × Bool) :=
  [ ("evo-uds-v3-production-register", "/api/auth/register", false),
    ("evo-uds-v3-production-refresh-token", "/api/auth/refresh", false),
    ("evo-uds-v3-production-forgot-password", "/api/auth/forgot-password", false),
    ("evo-uds-v3-production-reset-password", "/api/auth/reset-password", false),
    ("evo-uds-v3-production-mfa-verify-login", "/api/auth/mfa/verify", false),
    ("evo-uds-v3-production-logout", "/api/auth/logout", true),
    ("evo-uds-v3-production-change-password", "/api/auth/change-password", true),
    ("evo-uds-v3-production-mfa-enroll", "/api/auth/mfa/enroll", true),
    ("evo-uds-v3-production-mfa-check", "/api/auth/mfa/check", true),
    ("evo-uds-v3-production-mfa-list-factors", "/api/auth/mfa/factors", true),
    ("evo-uds-v3-production-save-aws-credentials", "/api/aws/credentials", true),
    ("evo-uds-v3-production-list-aws-credentials", "/api/aws/credentials/list", true),
    ("evo-uds-v3-production-validate-aws-credentials", "/api/aws/credentials/validate", true),
    ("evo-uds-v3-production-delete-aws-credentials", "/api/aws/credentials/delete", true),
    ("evo-uds-v3-production-save-azure-credentials", "/api/azure/credentials", true),
    ("evo-uds-v3-production-list-azure-credentials", "/api/azure/credentials/list", true),
    ("evo-uds-v3-production-validate-azure-credentials", "/api/azure/credentials/validate", true),
    ("evo-uds-v3-production-security-scan", "/api/security/scan", true),
    ("evo-uds-v3-production-list-security-scans", "/api/security/scans", true),
    ("evo-uds-v3-production-compliance-scan", "/api/security/compliance", true),
    ("evo-uds-v3-production-fetch-daily-costs", "/api/costs/daily", true),
    ("evo-uds-v3-production-cost-optimization", "/api/costs/optimization", true),
    ("evo-uds-v3-production-dashboard-metrics", "/api/dashboard/metrics", true),
    ("evo-uds-v3-production-executive-dashboard", "/api/dashboard/executive", true),
    ("evo-uds-v3-production-list-organizations", "/api/organizations", true),
    ("evo-uds-v3-production-list-users", "/api/users", true),
    ("evo-uds-v3-production-validate-license", "/api/licenses/validate", true) ]

/-- The main loop: `for lambda_name, (path, needs_auth) in ROUTES.items()`,
incrementing `success` when `create_route` returns `True` and `failed`
otherwise, starting from `success = 0`, `failed = 0`.  Result:
`(success, failed)`. -/
def processRoutes (env : Env) (routes : List (String × String × Bool)) : Nat × Nat :=
  routes.foldl
    (fun acc r =>
      if (create_route env r.1 r.2.1 r.2.2).1 then (acc.1 + 1, acc.2) else (acc.1, acc.2 + 1))
    (0, 0)

/-- The loop's accumulator, generalized over its starting value. -/
theorem processRoutes_foldl_add (env : Env) (routes : List (String × String × Bool)) :
    ∀ s f : Nat,
      (routes.foldl
        (fun acc r =>
          if (create_route env r.1 r.2.1 r.2.2).1 then (acc.1 + 1, acc.2) else (acc.1, acc.2 + 1))
        (s, f)).1
      + (routes.foldl
        (fun acc r =>
          if (create_route env r.1 r.2.1 r.2.2).1 then (acc.1 + 1, acc.2) else (acc.1, acc.2 + 1))
        (s, f)).2
      = s + f + routes.length := by
  induction routes with
  | nil => intro s f; simp
  | cons r rest ih =>
    intro s f
    cases h : (create_route env r.1 r.2.1 r.2.2).1 <;>
      simp only [List.foldl_cons, h, List.length_cons, Bool.false_eq_true, if_false,
        if_true] <;>
      rw [ih] <;> omega

/-- The loop result as success/failure counts over the route list. -/
theorem processRoutes_counts (env : Env) (routes : List (String × String × Bool)) :
    processRoutes env routes
      = (routes.countP (fun r => (create_route env r.1 r.2.1 r.2.2).1),
         routes.countP (fun r => !(create_route env r.1 r.2.1 r.2.2).1)) := by
  suffices h : ∀ s f : Nat,
      routes.foldl
        (fun acc r =>
          if (create_route env r.1 r.2.1 r.2.2).1 then (acc.1 + 1, acc.2) else (acc.1, acc.2 + 1))
        (s, f)
      = (s + routes.countP (fun r => (create_route env r.1 r.2.1 r.2.2).1),
         f + routes.countP (fun r => !(create_route env r.1 r.2.1 r.2.2).1)) by
    simpa [processRoutes] using h 0 0
  induction routes with
  | nil => intro s f; simp
  | cons r rest ih =>
    intro s f
    cases h : (create_route env r.1 r.2.1 r.2.2).1 <;>
      simp only [List.foldl_cons, h, List.countP_cons, Bool.false_eq_true, if_false, if_true,
        Bool.not_false, Bool.not_true] <;>
      rw [ih] <;>
      simp only [Prod.mk.injEq] <;> omega

/-- An environment in which every AWS call succeeds. -/
def envAllOk : Env :=
  { createIntegration := fun _ => .ok "int-1"
    createRoute := fun _ => .ok "route-1"
    addPermission := fun _ => .ok () }

/-- An environment whose permission grant raises (e.g. the statement already
exists), while integration and route creation succeed. -/
def envPermFail : Env :=
  { createIntegration := fun _ => .ok "int-1"
    createRoute := fun _ => .ok "route-1"
    addPermission := fun _ => .error "ResourceConflictException" }

/-- An environment whose route creation raises, after integration creation
has succeeded. -/
def envRouteFail : Env :=
  { createIntegration := fun _ => .ok "int-1"
    createRoute := fun _ => .error "BadRequestException"
    addPermission := fun _ => .ok () }

/-- An environment whose integration creation raises. -/
def envIntegrationFail : Env :=
  { createIntegration := fun _ => .error "TooManyRequestsException"
    createRoute := fun _ => .ok "route-1"
    addPermission := fun _ => .ok () }

/-- Claim C1: Every route-creation request issued by `create_route` carries
authorization type `"JWT"` and the fixed authorizer id `AUTHORIZER_ID` when
`needs_auth` is true, and has both authorization fields absent when
`needs_auth` is false. -/
theorem c1_route_authorization (env : Env) (ln p : String) (b : Bool) (rp : RouteParams)
    (hmem : Action.createRoute rp ∈ (create_route env ln p b).2) :
    (b = true → rp.authorizationType = some "JWT" ∧ rp.authorizerId = some AUTHORIZER_ID) ∧
    (b = false → rp.authorizationType = none ∧ rp.authorizerId = none) := by
  have hrp : ∃ iid, rp = route_params p b iid := by
    cases hci : env.createIntegration ln with
    | error e =>
      simp only [create_route, hci, List.mem_singleton] at hmem
      simp at hmem
    | ok iid =>
      refine ⟨iid, ?_⟩
      cases hcr : env.createRoute (route_params p b iid) with
      | error e =>
        simp only [create_route, hci, hcr, List.mem_cons, List.mem_singleton,
          List.not_mem_nil, or_false, Action.createRoute.injEq, reduceCtorEq,
          false_or] at hmem
        exact hmem
      | ok rid =>
        cases hap : env.addPermission ln <;>
          simp only [create_route, hci, hcr, hap, List.mem_cons, List.not_mem_nil,
            or_false, Action.createRoute.injEq, reduceCtorEq, false_or] at hmem <;>
          exact hmem
  obtain ⟨iid, rfl⟩ := hrp
  cases b <;> simp [route_params]

/-- Witness for C1: with an all-succeeding environment and `needs_auth = true`,
the request in the trace carries the JWT authorization metadata. -/
theorem c1_route_authorization_witness :
    (true = true →
      (route_params "/api/users" true "int-1").authorizationType = some "JWT" ∧
      (route_params "/api/users" true "int-1").authorizerId = some AUTHORIZER_ID) ∧
    (true = false →
      (route_params "/api/users" true "int-1").authorizationType = none ∧
      (route_params "/api/users" true "int-1").authorizerId = none) :=
  c1_route_authorization envAllOk "evo-uds-v3-production-list-users" "/api/users" true
    (route_params "/api/users" true "int-1") (by decide)

/-- Claim C5: For every pattern of per-route success and failure (i.e. every
provider environment), the reported `success` count plus the reported
`failed` count equals the number of entries in `ROUTES`. -/
theorem c5_success_plus_failed (env : Env) :
    (processRoutes env ROUTES).1 + (processRoutes env ROUTES).2 = ROUTES.length := by
  have h := processRoutes_foldl_add env ROUTES 0 0
  simpa [processRoutes] using h

/-- Claim C6: A failure in integration creation (step 1) or route creation
(step 2) is caught inside `create_route` and yields `False`; the recorded
trace shows each call issued exactly once with no further calls afterwards
(no retry, no rollback — the step-2 failure trace still contains the
integration-creation call that succeeded); and in the main loop such a
route contributes exactly one failure while every other route is processed
exactly as it would have been without it. -/
theorem c6_step_failure_caught (env : Env) (ln p : String) (b : Bool) :
    (∀ e, env.createIntegration ln = .error e →
      create_route env ln p b = (false, [Action.createIntegration ln])) ∧
    (∀ iid e, env.createIntegration ln = .ok iid →
      env.createRoute (route_params p b iid) = .error e →
      create_route env ln p b =
        (false, [Action.createIntegration ln, Action.createRoute (route_params p b iid)])) ∧
    (∀ pre post, (create_route env ln p b).1 = false →
      processRoutes env (pre ++ (ln, p, b) :: post)
        = ((processRoutes env (pre ++ post)).1, (processRoutes env (pre ++ post)).2 + 1)) := by
  refine ⟨?_, ?_, ?_⟩
  · intro e hci
    simp [create_route, hci]
  · intro iid e hci hcr
    simp [create_route, hci, hcr]
  · intro pre post hfail
    rw [processRoutes_counts, processRoutes_counts]
    simp only [List.countP_append, List.countP_cons, hfail, Bool.not_false, Bool.false_eq_true,
      if_false, if_true, Prod.mk.injEq]
    omega

/-- Witness for C6: concrete environments failing at step 1 and at step 2. -/
theorem c6_step_failure_caught_witness :
    create_route envIntegrationFail "fn" "/p" true
      = (false, [Action.createIntegration "fn"]) ∧
    create_route envRouteFail "fn" "/p" true
      = (false, [Action.createIntegration "fn",
                 Action.createRoute (route_params "/p" true "int-1")]) ∧
    processRoutes envRouteFail ([] ++ ("fn", "/p", true) :: [])
      = ((processRoutes envRouteFail ([] ++ [])).1,
         (processRoutes envRouteFail ([] ++ [])).2 + 1) :=
  ⟨(c6_step_failure_caught envIntegrationFail "fn" "/p" true).1
      "TooManyRequestsException" rfl,
   (c6_step_failure_caught envRouteFail "fn" "/p" true).2.1
      "int-1" "BadRequestException" rfl rfl,
   (c6_step_failure_caught envRouteFail "fn" "/p" true).2.2 [] [] rfl⟩

/-- Claim C7: The outcome of `create_route` does not depend on the
permission-grant call at all (environments differing only in
`addPermission` give identical results), and when steps 1 and 2 succeed the
route is reported created even though `add_permission` raised. -/
theorem c7_permission_failure_swallowed (env env2 : Env) (ln p : String) (b : Bool) :
    (env2.createIntegration = env.createIntegration →
      env2.createRoute = env.createRoute →
      create_route env ln p b = create_route env2 ln p b) ∧
    (∀ iid rid e, env.createIntegration ln = .ok iid →
      env.createRoute (route_params p b iid) = .ok rid →
      env.addPermission ln = .error e →
      (create_route env ln p b).1 = true) := by
  constructor
  · intro h1 h2
    cases hci : env.createIntegration ln with
    | error e => simp [create_route, h1, h2, hci]
    | ok iid =>
      cases hcr : env.createRoute (route_params p b iid) with
      | error e => simp [create_route, h1, h2, hci, hcr]
      | ok rid =>
        cases hap : env.addPermission ln <;> cases hap2 : env2.addPermission ln <;>
          simp [create_route, h1, h2, hci, hcr, hap, hap2]
  · intro iid rid e hci hcr hap
    simp [create_route, hci, hcr, hap]

/-- Witness for C7: with an environment whose permission grant raises,
`create_route` still returns success and equals the all-succeeding run. -/
theorem c7_permission_failure_swallowed_witness :
    create_route envPermFail "fn" "/p" true = create_route envAllOk "fn" "/p" true ∧
    (create_route envPermFail "fn" "/p" true).1 = true :=
  ⟨(c7_permission_failure_swallowed envPermFail envAllOk "fn" "/p" true).1 rfl rfl,
   (c7_permission_failure_swallowed envPermFail envAllOk "fn" "/p" true).2
      "int-1" "route-1" "ResourceConflictException" rfl rfl rfl⟩

/-! ## Template generator (`scripts/generate-cf-lambdas.py`)

The extraction pattern (compiled with `re.MULTILINE | re.DOTALL`) is

`  ([A-Z][a-zA-Z]+)Function:\s+Type: AWS::Serverless::Function\s+Properties:\s+FunctionName:.*?\s+CodeUri:.*?\s+Handler: ([\w/\-\.]+)`

It is embedded as a backtracking matcher over `List Char`: every quantifier
produces its candidate continuations in the engine's backtracking order
(greedy `+`: longest first; lazy `.*?`: shortest first), and `findSome?`
commits to the first candidate under which the rest of the pattern
succeeds — exactly the leftmost/backtracking semantics of Python `re`. -/

/-- Class `[A-Z]`. -/
def isUpperAZ (c : Char) : Bool := 'A' ≤ c && c ≤ 'Z'

/-- Class `[a-zA-Z]`. -/
def isAsciiLetter (c : Char) : Bool := ('A' ≤ c && c ≤ 'Z') || ('a' ≤ c && c ≤ 'z')

/-- Class `\s` (ASCII whitespace; the document format is ASCII). -/
def isWS (c : Char) : Bool :=
  c == ' ' || c == '\t' || c == '\n' || c == '\r' || c == '\x0b' || c == '\x0c'

/-- Class `\w` (ASCII). -/
def isWordChar (c : Char) : Bool :=
  isAsciiLetter c || ('0' ≤ c && c ≤ '9') || c == '_'

/-- Class `[\w/\-\.]` of the handler capture group. -/
def isHandlerChar (c : Char) : Bool :=
  isWordChar c || c == '/' || c == '-' || c == '.'

/-- A literal fragment of the pattern: consumes exactly `l`
(deterministic, no backtracking alternatives). -/
def litP (l s : List Char) : Option (List Char) :=
  if l.isPrefixOf s then some (s.drop l.length) else none

/-- A greedy one-or-more repetition `C+` of a character class: the candidate
splits `(matched, rest)`, with `matched` a nonempty run of `C`-characters,
longest first — the order in which a greedy quantifier is retried on
backtracking. -/
def plusCands (p : Char → Bool) (s : List Char) : List (List Char × List Char) :=
  (List.range (s.takeWhile p).length).map fun i =>
    ((s.takeWhile p).length - i, s) |> fun k => (k.2.take k.1, k.2.drop k.1)

/-- The lazy repetition `.*?` under `re.DOTALL`: candidate remainders after
consuming 0, 1, 2, … arbitrary characters, shortest consumption first — the
order in which a lazy quantifier is expanded on backtracking. -/
def lazyStarCands (s : List Char) : List (List Char) := s.tails

/-- The single-character class `[A-Z]`: consumes one uppercase letter. -/
def upperCand (s : List Char) : Option (Char × List Char) :=
  match s with
  | [] => none
  | c :: rest => if isUpperAZ c then some (c, rest) else none

/-- One attempt of the backtracking engine to match the extraction pattern at
the start of `s`.  On success, returns the two capture groups (logical name,
handler) together with the unconsumed remainder of the document. -/
def matchAt (s : List Char) : Option ((List Char × List Char) × List Char) :=
  (litP "  ".toList s).bind fun s1 =>
  (upperCand s1).bind fun cs =>
      (plusCands isAsciiLetter cs.2).findSome? fun g1 =>
      (litP "Function:".toList g1.2).bind fun s4 =>
      (plusCands isWS s4).findSome? fun w1 =>
      (litP "Type: AWS::Serverless::Function".toList w1.2).bind fun s6 =>
      (plusCands isWS s6).findSome? fun w2 =>
      (litP "Properties:".toList w2.2).bind fun s8 =>
      (plusCands isWS s8).findSome? fun w3 =>
      (litP "FunctionName:".toList w3.2).bind fun s10 =>
      (lazyStarCands s10).findSome? fun s11 =>
      (plusCands isWS s11).findSome? fun w4 =>
      (litP "CodeUri:".toList w4.2).bind fun s13 =>
      (lazyStarCands s13).findSome? fun s14 =>
      (plusCands isWS s14).findSome? fun w5 =>
      (litP "Handler: ".toList w5.2).bind fun s16 =>
      (plusCands isHandlerChar s16).findSome? fun g2 =>
      some ((cs.1 :: g1.1, g2.1), g2.2)

theorem upperCand_eq_some {s : List Char} {cs : Char × List Char}
    (h : upperCand s = some cs) : s = cs.1 :: cs.2 := by
  cases s with
  | nil => cases h
  | cons c rest =>
    simp only [upperCand] at h
    split at h
    · cases h; rfl
    · cases h

theorem isPrefixOf_length_le {l s : List Char} (h : l.isPrefixOf s = true) :
    l.length ≤ s.length := by
  induction l generalizing s with
  | nil => simp
  | cons c l ih =>
    cases s with
    | nil => simp [List.isPrefixOf] at h
    | cons d s =>
      simp only [List.isPrefixOf, Bool.and_eq_true] at h
      simp only [List.length_cons]
      exact Nat.succ_le_succ (ih h.2)

theorem litP_length {l s t : List Char} (h : litP l s = some t) :
    t.length + l.length = s.length := by
  unfold litP at h
  split at h
  case isTrue hp =>
    cases h
    have hle : l.length ≤ s.length := isPrefixOf_length_le hp
    simp only [List.length_drop]
    omega
  case isFalse => cases h

theorem plusCands_mem {p : Char → Bool} {s : List Char} {g : List Char × List Char}
    (h : g ∈ plusCands p s) : 1 ≤ g.1.length ∧ g.2.length ≤ s.length := by
  simp only [plusCands, List.mem_map, List.mem_range] at h
  obtain ⟨i, hi, rfl⟩ := h
  have hm : (s.takeWhile p).length ≤ s.length := (List.takeWhile_sublist p).length_le
  constructor
  · simp only [List.length_take]
    omega
  · simp only [List.length_drop]
    omega

theorem lazyStarCands_mem {s t : List Char} (h : t ∈ lazyStarCands s) :
    t.length ≤ s.length := by
  simp only [lazyStarCands, List.mem_tails] at h
  exact h.length_le

/-- Structure of a successful match attempt: the captured logical name has at
least two characters (`[A-Z][a-zA-Z]+`), and the match consumed at least one
character of the document. -/
theorem matchAt_spec {s : List Char} {r : (List Char × List Char) × List Char}
    (h : matchAt s = some r) : 2 ≤ r.1.1.length ∧ r.2.length < s.length := by
  unfold matchAt at h
  rw [Option.bind_eq_some] at h
  obtain ⟨s1, hlit, h⟩ := h
  have hs1 : s1.length + 2 = s.length := by
    have hlen : ("  ".toList).length = 2 := rfl
    have := litP_length hlit
    omega
  rw [Option.bind_eq_some] at h
  obtain ⟨cs, hupc, h⟩ := h
  have hcs : s1 = cs.1 :: cs.2 := upperCand_eq_some hupc
  obtain ⟨g1, hg1mem, h⟩ := List.exists_of_findSome?_eq_some h
  obtain ⟨hg1len, hg1rest⟩ := plusCands_mem hg1mem
  rw [Option.bind_eq_some] at h
  obtain ⟨s4, hlit4, h⟩ := h
  have h4 := litP_length hlit4
  obtain ⟨w1, hw1mem, h⟩ := List.exists_of_findSome?_eq_some h
  obtain ⟨-, hw1rest⟩ := plusCands_mem hw1mem
  rw [Option.bind_eq_some] at h
  obtain ⟨s6, hlit6, h⟩ := h
  have h6 := litP_length hlit6
  obtain ⟨w2, hw2mem, h⟩ := List.exists_of_findSome?_eq_some h
  obtain ⟨-, hw2rest⟩ := plusCands_mem hw2mem
  rw [Option.bind_eq_some] at h
  obtain ⟨s8, hlit8, h⟩ := h
  have h8 := litP_length hlit8
  obtain ⟨w3, hw3mem, h⟩ := List.exists_of_findSome?_eq_some h
  obtain ⟨-, hw3rest⟩ := plusCands_mem hw3mem
  rw [Option.bind_eq_some] at h
  obtain ⟨s10, hlit10, h⟩ := h
  have h10 := litP_length hlit10
  obtain ⟨s11, hs11mem, h⟩ := List.exists_of_findSome?_eq_some h
  have hs11 := lazyStarCands_mem hs11mem
  obtain ⟨w4, hw4mem, h⟩ := List.exists_of_findSome?_eq_some h
  obtain ⟨-, hw4rest⟩ := plusCands_mem hw4mem
  rw [Option.bind_eq_some] at h
  obtain ⟨s13, hlit13, h⟩ := h
  have h13 := litP_length hlit13
  obtain ⟨s14, hs14mem, h⟩ := List.exists_of_findSome?_eq_some h
  have hs14 := lazyStarCands_mem hs14mem
  obtain ⟨w5, hw5mem, h⟩ := List.exists_of_findSome?_eq_some h
  obtain ⟨-, hw5rest⟩ := plusCands_mem hw5mem
  rw [Option.bind_eq_some] at h
  obtain ⟨s16, hlit16, h⟩ := h
  have h16 := litP_length hlit16
  obtain ⟨g2, hg2mem, h⟩ := List.exists_of_findSome?_eq_some h
  obtain ⟨hg2len, hg2rest⟩ := plusCands_mem hg2mem
  cases h
  subst hcs
  simp only [List.length_cons] at hs1
  constructor
  · show 2 ≤ (cs.1 :: g1.1).length
    simp only [List.length_cons]
    omega
  · show g2.2.length < s.length
    omega

/-- The scan loop of `re.findall`, structurally recursive on a fuel bound so
that it evaluates inside the kernel: at each position attempt the pattern; on
success record the two capture groups and resume after the match (matches
are non-overlapping), otherwise advance one character.  Each step consumes
at least one character (`matchAt_spec`), so any `fuel ≥ s.length` yields the
same result (`findallFuel_congr`). -/
def findallFuel : Nat → List Char → List (List Char × List Char)
  | 0, _ => []
  | fuel + 1, s =>
    match matchAt s with
    | some r => r.1 :: findallFuel fuel r.2
    | none =>
      match s with
      | [] => []
      | _ :: rest => findallFuel fuel rest

/-- Embedding of `re.findall(pattern, sam_content, re.MULTILINE | re.DOTALL)`. -/
def findallAux (s : List Char) : List (List Char × List Char) :=
  findallFuel s.length s

/-- The fuel bound is irrelevant once it dominates the document length, so
`findallAux` is the unique fixpoint of the scan loop. -/
theorem findallFuel_congr :
    ∀ (fuel fuel' : Nat) (s : List Char), s.length ≤ fuel → s.length ≤ fuel' →
      findallFuel fuel s = findallFuel fuel' s := by
  intro fuel
  induction fuel with
  | zero =>
    intro fuel' s hs hs'
    have : s = [] := List.length_eq_zero.mp (Nat.le_antisymm hs (Nat.zero_le _))
    subst this
    cases fuel' with
    | zero => rfl
    | succ m => rfl
  | succ n ih =>
    intro fuel' s hs hs'
    cases s with
    | nil =>
      cases fuel' with
      | zero => rfl
      | succ m => rfl
    | cons c rest =>
      cases fuel' with
      | zero => simp at hs'
      | succ m =>
        simp only [findallFuel]
        cases hm : matchAt (c :: rest) with
        | some r =>
          have hlt := (matchAt_spec hm).2
          simp only [List.length_cons] at hs hs' hlt
          show r.1 :: findallFuel n r.2 = r.1 :: findallFuel m r.2
          rw [ih m r.2 (by omega) (by omega)]
        | none =>
          simp only [List.length_cons] at hs hs'
          show findallFuel n rest = findallFuel m rest
          rw [ih m rest (by omega) (by omega)]

/-- A `functions` entry: `{'name': ..., 'handler': ...}`. -/
structure FunctionRecord where
  name : String
  handler : String
deriving DecidableEq, Repr

/-- The `functions` list built from the `re.findall` matches, in match
order. -/
def extractFunctions (doc : String) : List FunctionRecord :=
  (findallAux doc.toList).map fun g => { name := String.mk g.1, handler := String.mk g.2 }

/-- Hyphen insertion of `re.sub(r'(?<!^)(?=[A-Z])', '-', ...)` at the
positions after the first character: every zero-width position immediately
before an `[A-Z]` character receives a `'-'`. -/
def subHyphenAux : List Char → List Char
  | [] => []
  | c :: rest => (if isUpperAZ c then ['-', c] else [c]) ++ subHyphenAux rest

/-- Embedding of `re.sub(r'(?<!^)(?=[A-Z])', '-', s)`: the lookbehind `(?<!^)` exempts the
position before the first character. -/
def reSubHyphen : List Char → List Char
  | [] => []
  | c :: rest => c :: subHyphenAux rest

/-- Embedding of `str.lower()` (the extracted names are ASCII letters, for which Python
and Lean lower-casing agree). -/
def pyLower (s : List Char) : List Char := s.map Char.toLower

/-- Definition `func_name_kebab = re.sub(r'(?<!^)(?=[A-Z])', '-', func['name']).lower()`. -/
def func_name_kebab (s : String) : String := String.mk (pyLower (reSubHyphen s.toList))

/-- Embedding of `str.replace('dist/', '')`: scanning left to right, every (leftmost,
non-overlapping) occurrence of the five-character substring `"dist/"` is
removed, anywhere in the string; scanning resumes after the removed
occurrence. -/
def removeDist : List Char → List Char
  | 'd' :: 'i' :: 's' :: 't' :: '/' :: rest => removeDist rest
  | c :: rest => c :: removeDist rest
  | [] => []

/-- Assignment `handler = func['handler'].replace('dist/', '')`. -/
def normalizeHandler (h : String) : String := String.mk (removeDist h.toList)

/-- Modelled from the spec's words for the name transformation, as a
position-indexed function: a hyphen is inserted before each internal
(position `≠ 0`) uppercase letter, and then the whole string is
lower-cased. -/
def specKebab (s : String) : String :=
  String.mk
    (((s.toList.enum.map fun pc =>
        if pc.1 ≠ 0 ∧ isUpperAZ pc.2 then ['-', pc.2] else [pc.2]).flatten).map Char.toLower)

theorem subHyphenAux_enumFrom (rest : List Char) : ∀ n : Nat,
    ((rest.enumFrom (n + 1)).map fun pc =>
      if pc.1 ≠ 0 ∧ isUpperAZ pc.2 then ['-', pc.2] else [pc.2]).flatten
    = subHyphenAux rest := by
  induction rest with
  | nil => intro n; rfl
  | cons c rest ih =>
    intro n
    simp only [List.enumFrom_cons, List.map_cons, List.flatten_cons, subHyphenAux]
    rw [ih (n + 1)]
    by_cases hc : isUpperAZ c = true
    · simp [hc]
    · simp [hc]

/-- The source transformation and the spec's description agree on every
string. -/
theorem func_name_kebab_eq_specKebab (s : String) : func_name_kebab s = specKebab s := by
  unfold func_name_kebab specKebab pyLower reSubHyphen
  cases hs : s.toList with
  | nil => rfl
  | cons c rest =>
    rw [List.enum_cons]
    simp only [List.map_cons, List.flatten_cons]
    rw [subHyphenAux_enumFrom rest 0]
    simp

/-- The fixed preamble of the generated document — format version,
description, the parameters, and the shared `LambdaExecutionRole` resource
(the initial value of the Python `cf_template` string, byte for byte). -/
def cfPreamble : String :=
  "AWSTemplateFormatVersion: '2010-09-09'\nDescription: EVO Production - All 194 Lambda Functions\n\nParameters:\n  Environment:\n    Type: String\n    Default: production\n  \n  ProjectName:\n    Type: String\n    Default: evo-uds-v3\n\n  LayerArn:\n    Type: String\n    Default: arn:aws:lambda:us-east-1:523115032346:layer:evo-uds-v3-production-deps:3\n\n  CodeS3Bucket:\n    Type: String\n    Default: evo-sam-artifacts-523115032346\n\n  CodeS3Key:\n    Type: String\n    Default: lambda-code/lambda-code-prod-v2.zip\n\nResources:\n  # IAM Role for all Lambdas\n  LambdaExecutionRole:\n    Type: AWS::IAM::Role\n    Properties:\n      RoleName: !Sub '${ProjectName}-${Environment}-lambda-role'\n      AssumeRolePolicyDocument:\n        Version: '2012-10-17'\n        Statement:\n          - Effect: Allow\n            Principal:\n              Service: lambda.amazonaws.com\n            Action: sts:AssumeRole\n      ManagedPolicyArns:\n        - arn:aws:iam::aws:policy/service-role/AWSLambdaBasicExecutionRole\n        - arn:aws:iam::aws:policy/service-role/AWSLambdaVPCAccessExecutionRole\n        - arn:aws:iam::aws:policy/AmazonBedrockFullAccess\n      Policies:\n        - PolicyName: LambdaPolicy\n          PolicyDocument:\n            Version: '2012-10-17'\n            Statement:\n              - Effect: Allow\n                Action:\n                  - logs:*\n                  - secretsmanager:*\n                  - cognito-idp:*\n                  - s3:*\n                  - ses:*\n                  - sts:*\n                  - ce:*\n                  - cloudwatch:*\n                  - cloudtrail:*\n                  - guardduty:*\n                  - securityhub:*\n                  - iam:*\n                  - ec2:Describe*\n                  - rds:Describe*\n                  - lambda:*\n                  - wafv2:*\n                Resource: '*'\n\n"

/-- The per-function block appended by
`cf_template += f'''  {func['name']}Function: ...'''` — one
`AWS::Lambda::Function` resource, with the kebab-cased deployed name and the
normalized handler spliced in. -/
def functionBlock (f : FunctionRecord) : String :=
  "  " ++ f.name ++
  "Function:\n    Type: AWS::Lambda::Function\n    Properties:\n      FunctionName: !Sub '${ProjectName}-${Environment}-" ++
  func_name_kebab f.name ++
  "'\n      Runtime: nodejs20.x\n      Handler: " ++
  normalizeHandler f.handler ++
  "\n      Code:\n        S3Bucket: !Ref CodeS3Bucket\n        S3Key: !Ref CodeS3Key\n      Layers:\n        - !Ref LayerArn\n      Architectures:\n        - arm64\n      Timeout: 30\n      MemorySize: 256\n      Role: !GetAtt LambdaExecutionRole.Arn\n\n"

/-- The fixed closing `Outputs:` section. -/
def outputsSection : String :=
  "Outputs:\n  LambdaExecutionRoleArn:\n    Value: !GetAtt LambdaExecutionRole.Arn\n  LayerArn:\n    Value: !Ref LayerArn\n"

/-- The full generated document: the preamble, then the
`for func in functions: cf_template += ...` accumulation loop, then the
outputs section. -/
def cfTemplate (doc : String) : String :=
  ((extractFunctions doc).foldl (fun acc f => acc ++ functionBlock f) cfPreamble)
    ++ outputsSection

/-- One block per record, concatenated in list order. -/
def concatBlocks : List FunctionRecord → String
  | [] => ""
  | f :: fs => functionBlock f ++ concatBlocks fs

/-- The number of positions of `s` at which `pat` occurs. -/
def countOccur (pat : List Char) : List Char → Nat
  | [] => 0
  | c :: rest => (if pat.isPrefixOf (c :: rest) then 1 else 0) + countOccur pat rest

/-- The scenario input document: two serverless-function declarations,
`FetchCosts` with handler `dist/fetchCosts.handler` and `ListUsers` with
handler `listUsers.handler`. -/
def scenarioDoc : String :=
  "Resources:\n  FetchCostsFunction:\n    Type: AWS::Serverless::Function\n    Properties:\n      FunctionName: evo-fetch-costs\n      CodeUri: ./\n      Handler: dist/fetchCosts.handler\n\n  ListUsersFunction:\n    Type: AWS::Serverless::Function\n    Properties:\n      FunctionName: evo-list-users\n      CodeUri: ./\n      Handler: listUsers.handler\n"

/-- An input document whose only function declaration has the single-letter
logical name `A`. -/
def singleLetterDoc : String :=
  "Resources:\n  AFunction:\n    Type: AWS::Serverless::Function\n    Properties:\n      FunctionName: evo-a\n      CodeUri: ./\n      Handler: a.handler\n"

set_option maxRecDepth 40000

theorem foldl_blocks (fs : List FunctionRecord) : ∀ init : String,
    fs.foldl (fun acc f => acc ++ functionBlock f) init = init ++ concatBlocks fs := by
  induction fs with
  | nil => intro init; simp [concatBlocks]
  | cons f fs ih =>
    intro init
    simp only [List.foldl_cons, concatBlocks]
    rw [ih, String.append_assoc]

/-- Every name captured by a match has at least two characters
(`[A-Z][a-zA-Z]+`). -/
theorem findallFuel_name_len : ∀ (fuel : Nat) (s : List Char) (g : List Char × List Char),
    g ∈ findallFuel fuel s → 2 ≤ g.1.length := by
  intro fuel
  induction fuel with
  | zero =>
    intro s g hg
    simp [findallFuel] at hg
  | succ n ih =>
    intro s g hg
    cases hm : matchAt s with
    | some r =>
      simp only [findallFuel, hm] at hg
      rcases List.mem_cons.mp hg with hg | hg
      · subst hg
        exact (matchAt_spec hm).1
      · exact ih _ _ hg
    | none =>
      cases s with
      | nil => simp [findallFuel, hm] at hg
      | cons c rest =>
        simp only [findallFuel, hm] at hg
        exact ih _ _ hg

/-- Claim C2, evaluated at the failing input: The handler normalization is
`str.replace('dist/', '')`, which rewrites every occurrence of `"dist/"`:
the handler `a/dist/b.handler` does not start with `dist/`, yet it comes
out changed to `a/b.handler` instead of passing through unchanged. -/
theorem c2_replace_hits_internal_occurrence :
    ("dist/".toList.isPrefixOf "a/dist/b.handler".toList) = false ∧
    normalizeHandler "a/dist/b.handler" = "a/b.handler" ∧
    normalizeHandler "a/dist/b.handler" ≠ "a/dist/b.handler" :=
  ⟨by decide, by decide, by decide⟩

/-- Claim C3: The name transformation equals the spec's pure function — a
hyphen inserted before each internal uppercase letter, then the whole
string lower-cased — including on the table-driven cases `UserLogin`,
`A` and `ABCTest`. -/
theorem c3_name_transformation :
    (∀ s : String, func_name_kebab s = specKebab s) ∧
    func_name_kebab "UserLogin" = "user-login" ∧
    func_name_kebab "A" = "a" ∧
    func_name_kebab "ABCTest" = "a-b-c-test" :=
  ⟨func_name_kebab_eq_specKebab, by decide, by decide, by decide⟩

/-- Claim C4: The generated document is exactly the preamble, then one
function resource block per extracted record in match order, then the
outputs section.  On the scenario document the extraction yields
`FetchCosts` / `ListUsers` in source order; the rendered output is the
preamble (which holds the single shared execution role), then the
`FetchCostsFunction` block, then the `ListUsersFunction` block, then the
outputs section; each of the two blocks declares exactly one
`AWS::Lambda::Function` resource and no IAM role, the outputs section
declares exactly two output values and no role, and the blocks carry the
expected kebab-cased deployed names and normalized handlers. -/
theorem c4_one_block_per_match :
    (∀ doc : String,
      cfTemplate doc = cfPreamble ++ concatBlocks (extractFunctions doc) ++ outputsSection) ∧
    extractFunctions scenarioDoc
      = [⟨"FetchCosts", "dist/fetchCosts.handler"⟩, ⟨"ListUsers", "listUsers.handler"⟩] ∧
    cfTemplate scenarioDoc
      = cfPreamble
        ++ (functionBlock ⟨"FetchCosts", "dist/fetchCosts.handler"⟩
            ++ (functionBlock ⟨"ListUsers", "listUsers.handler"⟩ ++ ""))
        ++ outputsSection ∧
    functionBlock ⟨"FetchCosts", "dist/fetchCosts.handler"⟩
      = "  FetchCostsFunction:\n    Type: AWS::Lambda::Function\n    Properties:\n      FunctionName: !Sub '${ProjectName}-${Environment}-fetch-costs'\n      Runtime: nodejs20.x\n      Handler: fetchCosts.handler\n      Code:\n        S3Bucket: !Ref CodeS3Bucket\n        S3Key: !Ref CodeS3Key\n      Layers:\n        - !Ref LayerArn\n      Architectures:\n        - arm64\n      Timeout: 30\n      MemorySize: 256\n      Role: !GetAtt LambdaExecutionRole.Arn\n\n" ∧
    functionBlock ⟨"ListUsers", "listUsers.handler"⟩
      = "  ListUsersFunction:\n    Type: AWS::Lambda::Function\n    Properties:\n      FunctionName: !Sub '${ProjectName}-${Environment}-list-users'\n      Runtime: nodejs20.x\n      Handler: listUsers.handler\n      Code:\n        S3Bucket: !Ref CodeS3Bucket\n        S3Key: !Ref CodeS3Key\n      Layers:\n        - !Ref LayerArn\n      Architectures:\n        - arm64\n      Timeout: 30\n      MemorySize: 256\n      Role: !GetAtt LambdaExecutionRole.Arn\n\n" ∧
    countOccur "Type: AWS::Lambda::Function".toList
      (functionBlock ⟨"FetchCosts", "dist/fetchCosts.handler"⟩).toList = 1 ∧
    countOccur "Type: AWS::Lambda::Function".toList
      (functionBlock ⟨"ListUsers", "listUsers.handler"⟩).toList = 1 ∧
    countOccur "Type: AWS::IAM::Role".toList
      (functionBlock ⟨"FetchCosts", "dist/fetchCosts.handler"⟩).toList = 0 ∧
    countOccur "Type: AWS::IAM::Role".toList
      (functionBlock ⟨"ListUsers", "listUsers.handler"⟩).toList = 0 ∧
    countOccur "Type: AWS::Lambda::Function".toList outputsSection.toList = 0 ∧
    countOccur "Type: AWS::IAM::Role".toList outputsSection.toList = 0 ∧
    countOccur "    Value: ".toList outputsSection.toList = 2 ∧
    func_name_kebab "FetchCosts" = "fetch-costs" ∧
    normalizeHandler "dist/fetchCosts.handler" = "fetchCosts.handler" ∧
    func_name_kebab "ListUsers" = "list-users" ∧
    normalizeHandler "listUsers.handler" = "listUsers.handler" := by
  have hblocks : ∀ doc : String,
      cfTemplate doc = cfPreamble ++ concatBlocks (extractFunctions doc) ++ outputsSection := by
    intro doc
    unfold cfTemplate
    rw [foldl_blocks]
  have hextract : extractFunctions scenarioDoc
      = [⟨"FetchCosts", "dist/fetchCosts.handler"⟩, ⟨"ListUsers", "listUsers.handler"⟩] := by
    decide
  refine ⟨hblocks, hextract, ?_, by decide, by decide, by decide, by decide, by decide,
    by decide, by decide, by decide, by decide, by decide, by decide, by decide, by decide⟩
  rw [hblocks scenarioDoc, hextract]
  rfl

/-- Claim C8: Rendering is a pure function of the input document: two runs on
equal inputs produce byte-identical output. -/
theorem c8_deterministic (d1 d2 : String) (h : d1 = d2) :
    cfTemplate d1 = cfTemplate d2 := by
  rw [h]

/-- Witness for C8: two runs on the scenario document coincide. -/
theorem c8_deterministic_witness : cfTemplate scenarioDoc = cfTemplate scenarioDoc :=
  c8_deterministic scenarioDoc scenarioDoc rfl

/-- Claim C9: A zero-match scan still produces the degenerate document made of
exactly the fixed preamble (parameters plus shared role) and the fixed
outputs section, with no function resource blocks in between. -/
theorem c9_zero_matches (doc : String) (h : extractFunctions doc = []) :
    cfTemplate doc = cfPreamble ++ outputsSection := by
  unfold cfTemplate
  rw [h]
  rfl

/-- Witness for C9: the empty document has no matches. -/
theorem c9_zero_matches_witness : cfTemplate "" = cfPreamble ++ outputsSection :=
  c9_zero_matches "" (by decide)

/-- Claim C10: The pattern's name group `[A-Z][a-zA-Z]+` needs at least two
letters: every extracted record has a name of length at least two, and a
document whose only declaration is the single-letter `AFunction:` block
yields no extraction and the degenerate output document. -/
theorem c10_single_letter_never_extracted :
    (∀ (doc : String) (r : FunctionRecord), r ∈ extractFunctions doc → 2 ≤ r.name.length) ∧
    extractFunctions singleLetterDoc = [] ∧
    cfTemplate singleLetterDoc = cfPreamble ++ outputsSection := by
  refine ⟨?_, by decide, ?_⟩
  · intro doc r hr
    unfold extractFunctions findallAux at hr
    obtain ⟨g, hg, rfl⟩ := List.mem_map.mp hr
    simpa using findallFuel_name_len _ _ _ hg
  · unfold cfTemplate
    rw [show extractFunctions singleLetterDoc = [] from by decide]
    rfl

/-- Witness for C10: a concrete extracted record of the scenario document,
whose name indeed has at least two characters. -/
theorem c10_single_letter_never_extracted_witness :
    2 ≤ (FunctionRecord.mk "FetchCosts" "dist/fetchCosts.handler").name.length :=
  c10_single_letter_never_extracted.1 scenarioDoc
    ⟨"FetchCosts", "dist/fetchCosts.handler"⟩ (by decide)

end AwsEvo
